import Mathlib

/-!
Verification of the MINTe scenario-to-prediction pipeline.

The repository ships its core pipeline (the `minter`/`minte` package: net-efficacy
aggregation, scenario building, model caching, emulator running, result
aggregation) outside the provided sources; only its tests, an example caller and
an RDS conversion utility are shown.  The definitions below therefore embed the
core components as described by the specification, faithful to its words, and
the theorems settle the frozen claims against that embedding.

Real-number quantities are modelled as rationals (`ℚ`), model handles as natural
identifiers, and external effects (the model-artifact store, the pretrained
predictors, the wall clock) as explicit function parameters.
-/

namespace MINTe

/-- Modelled from the spec: the error kinds of §7 (input-validation errors,
artifact-not-found); the core error-raising code is not among the provided
sources.  `emptyNetTypes` corresponds to the "must supply at least one" message
and `unknownNetType` to the "Unknown net type" message exercised by the tests. -/
inductive MintError where
  | emptyNetTypes
  | unknownNetType (key : String)
  | usageOutOfRange (key : String)
  | usageSumExceedsOne
  | shapeMismatch (fieldIndex : Nat)
  | invalidValue (rowIndex fieldIndex : Nat)
  | duplicateTags
  | nonPositiveTimeSteps
  | artifactNotFound (predictor modelType : String)
deriving DecidableEq, Repr

/-- Modelled from the spec: the immutable pair returned by NetEfficacyAggregator
(`DN0Result` of `minter.parser`, absent from the provided sources). -/
structure DN0Result where
  dn0 : ℚ
  itn_use : ℚ
deriving DecidableEq, Repr

/-- Modelled from the spec: the fixed, total lookup table from user-facing short
codes to canonical net-type names (`CANONICAL_NET_TYPES` of `minter.parser`,
absent from the provided sources; its four entries are asserted by
`test_canonical_name_mapping`). -/
def CANONICAL_NET_TYPES : List (String × String) :=
  [("py_only", "pyrethroid_only"),
   ("py_pbo", "pyrethroid_pbo"),
   ("py_pyrrole", "pyrethroid_pyrrole"),
   ("py_ppf", "pyrethroid_ppf")]

/-- Modelled from the spec: `calculate_overall_dn0`, NetEfficacyAggregator's
`aggregate` (§4.1), absent from the provided sources.  `eff` stands for the
externally loaded per-net-type baseline efficacy curve, keyed by canonical
net-type name and evaluated at the resistance level; `usage` is the mapping from
short codes to usage fractions.  Validation order: empty mapping, unknown keys,
out-of-range fractions, usage sum above one (§9 treats the last as a hard
rejection); `dn0` is the usage-weighted sum of per-type contributions and
`itn_use` the un-weighted sum of the usage fractions. -/
def calculate_overall_dn0 (eff : String → ℚ → ℚ) (resistance_level : ℚ)
    (usage : List (String × ℚ)) : Except MintError DN0Result :=
  match usage with
  | [] => .error .emptyNetTypes
  | _ =>
    match usage.find? (fun kv => (CANONICAL_NET_TYPES.lookup kv.1).isNone) with
    | some kv => .error (.unknownNetType kv.1)
    | none =>
      match usage.find? (fun kv => decide (kv.2 < 0) || decide (1 < kv.2)) with
      | some kv => .error (.usageOutOfRange kv.1)
      | none =>
        let total := (usage.map (fun kv => kv.2)).sum
        if 1 < total then .error .usageSumExceedsOne
        else
          .ok ⟨(usage.map (fun kv =>
                  kv.2 * eff ((CANONICAL_NET_TYPES.lookup kv.1).getD "") resistance_level)).sum,
               total⟩

/-- Modelled from the spec: a per-field scenario input, either a scalar or a
sequence (§4.2 broadcasting; the ScenarioBuilder source is not provided). -/
inductive ParamField (α : Type) where
  | scalar (a : α)
  | seq (xs : List α)
deriving DecidableEq, Repr

/-- Whether the field is scalar-valued. -/
def ParamField.isScalar : ParamField α → Bool
  | .scalar _ => true
  | .seq _ => false

/-- Length of the sequence for sequence-valued fields, `none` for scalars. -/
def ParamField.lenOpt : ParamField α → Option Nat
  | .scalar _ => none
  | .seq xs => some xs.length

/-- Modelled from the spec: the batch length implied by the longest
sequence-valued field (§4.2); `1` when every field is scalar. -/
def batchLen (fields : List (ParamField ℚ)) : Nat :=
  fields.foldr (fun f n => match f.lenOpt with | some m => max m n | none => n) 1

/-- Value of a field at batch row `i` under broadcasting: scalars and length-one
sequences are replicated, longer sequences are indexed. -/
def ParamField.valueAt (f : ParamField ℚ) (i : Nat) : ℚ :=
  match f with
  | .scalar a => a
  | .seq [a] => a
  | .seq xs => xs.getD i 0

/-- Modelled from the spec: one validation pass over the fields (§4.2); a
sequence whose length is neither `1` nor the batch length `n` is a hard input
error identifying the offending field index. -/
def checkShapes (n : Nat) : List (ParamField ℚ) → Nat → Except MintError Unit
  | [], _ => .ok ()
  | f :: fs, idx =>
    match f.lenOpt with
    | none => checkShapes n fs (idx + 1)
    | some m => if m = 1 ∨ m = n then checkShapes n fs (idx + 1)
                else .error (.shapeMismatch idx)

/-- The multiset of values a field supplies (the scalar itself, or the
sequence's elements). -/
def ParamField.values : ParamField ℚ → List ℚ
  | .scalar a => [a]
  | .seq xs => xs

/-- Modelled from the spec: the §3 record invariant for one resolved value —
fractions lie in [0,1], counts/rates are ≥ 0 — applied positionally (positions
0 and 5 are the rate-like `eir` and `seasonal` fields of the resolved record,
the remaining positions are fractions). -/
def fieldValid (j : Nat) (v : ℚ) : Bool :=
  if j = 0 ∨ j = 5 then decide (0 ≤ v)
  else decide (0 ≤ v) && decide (v ≤ 1)

/-- Modelled from the spec: validation of one produced row's values (§4.2/§3);
the first out-of-range value is a hard input error identifying the offending
row index `i` and field index. -/
def checkRowValues : List ℚ → Nat → Nat → Except MintError Unit
  | [], _, _ => .ok ()
  | v :: vs, i, j =>
    if fieldValid j v then checkRowValues vs i (j + 1)
    else .error (.invalidValue i j)

/-- Modelled from the spec: validation of every produced row before inclusion
(§4.2); a single invalid row fails the whole batch-build call. -/
def checkRows : List (List ℚ) → Nat → Except MintError Unit
  | [], _ => .ok ()
  | row :: rows, i =>
    match checkRowValues row i 0 with
    | .error e => .error e
    | .ok _ => checkRows rows (i + 1)

/-- Modelled from the spec: `ScenarioBuilder.build` (§4.2), absent from the
provided sources.  Fields are given positionally; the result is the batch as a
list of rows, each row holding one broadcast value per field.  Shapes are
checked in one validation pass, then every produced row's values are validated
against the §3 record invariant before the batch is returned: a single invalid
value fails the whole call and no partial batch is produced. -/
def ScenarioBuilder.build (fields : List (ParamField ℚ)) :
    Except MintError (List (List ℚ)) :=
  match checkShapes (batchLen fields) fields 0 with
  | .error e => .error e
  | .ok _ =>
    let rows := (List.range (batchLen fields)).map
      (fun i => fields.map (fun f => f.valueAt i))
    match checkRows rows 0 with
    | .error e => .error e
    | .ok _ => .ok rows

/-- Modelled from the spec: the process-wide model registry (§4.3), absent from
the provided sources.  `entries` maps a (predictor, model-type) key to the
identifier of the loaded handle (identifiers stand for object identity);
`loadCount` counts the artifact loads performed; `nextId` generates fresh
handle identities. -/
structure ModelCache where
  entries : List ((String × String) × Nat)
  loadCount : Nat
  nextId : Nat
deriving DecidableEq, Repr

/-- Modelled from the spec: `ModelCache.get` (§4.3), absent from the provided
sources.  `store` tells whether an artifact exists for a key at the configured
location.  A cached key is returned without reloading; an uncached key with a
present artifact is loaded once and stored; a missing artifact is a not-found
error. -/
def ModelCache.get (store : String × String → Bool) (c : ModelCache)
    (k : String × String) : Except MintError (Nat × ModelCache) :=
  match c.entries.lookup k with
  | some h => .ok (h, c)
  | none =>
    if store k then
      .ok (c.nextId,
           { entries := (k, c.nextId) :: c.entries,
             loadCount := c.loadCount + 1,
             nextId := c.nextId + 1 })
    else .error (.artifactNotFound k.1 k.2)

/-- Modelled from the spec: `warm_up` / `preload_all_models` (§4.3), absent from
the provided sources.  Eagerly populates the cache over the known keys; a
missing artifact fails the warm-up only in strict mode, otherwise it is
skipped. -/
def ModelCache.warm_up (store : String × String → Bool) (strict : Bool)
    (c : ModelCache) : List (String × String) → Except MintError ModelCache
  | [] => .ok c
  | k :: ks =>
    if store k then
      match ModelCache.get store c k with
      | .error e => .error e
      | .ok (_, c1) => ModelCache.warm_up store strict c1 ks
    else if strict then .error (.artifactNotFound k.1 k.2)
    else ModelCache.warm_up store strict c ks

/-- Modelled from the spec: one row of fully-resolved model inputs
(ScenarioRecord, §3), absent from the provided sources; field names follow the
example caller's `create_scenarios` arguments. -/
structure ScenarioRecord where
  eir : ℚ
  dn0_use : ℚ
  dn0_future : ℚ
  Q0 : ℚ
  phi_bednets : ℚ
  seasonal : ℚ
  routine : ℚ
  itn_use : ℚ
  irs_use : ℚ
  itn_future : ℚ
  irs_future : ℚ
  lsm : ℚ
  scenario_tag : String
deriving DecidableEq, Repr

/-- Modelled from the spec: a per-(scenario, predictor, time-step) trajectory
point (PredictionResult, §3), absent from the provided sources. -/
structure PredictionResult where
  scenario_tag : String
  timestep : Nat
  value : ℚ
deriving DecidableEq, Repr

/-- Concatenation of the images of a list under a list-valued function,
preserving order. -/
def concatMap (f : α → List β) : List α → List β
  | [] => []
  | a :: l => f a ++ concatMap f l

/-- Modelled from the spec: the per-predictor inner loop of EmulatorRunner
(§4.4), absent from the provided sources.  `predict` is the black-box model
family (handle identifier, scenario row, horizon ↦ trajectory); each scenario
row yields one trajectory of `ts` time-ordered points tagged with the row's
scenario tag, and trajectories are concatenated preserving batch row order. -/
def runPredictor (predict : Nat → ScenarioRecord → Nat → List ℚ) (h : Nat)
    (batch : List ScenarioRecord) (ts : Nat) : List PredictionResult :=
  concatMap (fun s => (List.range ts).map
    (fun t => ⟨s.scenario_tag, t, (predict h s ts).getD t 0⟩)) batch

/-- Modelled from the spec: the per-predictor outer loop of EmulatorRunner
(§4.4), absent from the provided sources.  One handle resolution per predictor,
reused across all rows; the cache state is threaded through. -/
def EmulatorRunner.runPreds (store : String × String → Bool)
    (predict : Nat → ScenarioRecord → Nat → List ℚ)
    (batch : List ScenarioRecord) (mt : String) (ts : Nat) :
    List String → ModelCache →
    Except MintError (ModelCache × List (String × List PredictionResult))
  | [], c => .ok (c, [])
  | p :: ps, c =>
    match ModelCache.get store c (p, mt) with
    | .error e => .error e
    | .ok (h, c1) =>
      match EmulatorRunner.runPreds store predict batch mt ts ps c1 with
      | .error e => .error e
      | .ok (c2, rest) => .ok (c2, (p, runPredictor predict h batch ts) :: rest)

/-- Modelled from the spec: `EmulatorRunner.run` (§4.4), absent from the
provided sources.  A non-positive time horizon is a hard input error raised
before any model handle is resolved. -/
def EmulatorRunner.run (store : String × String → Bool)
    (predict : Nat → ScenarioRecord → Nat → List ℚ) (c : ModelCache)
    (batch : List ScenarioRecord) (predictors : List String) (mt : String)
    (time_steps : Int) :
    Except MintError (ModelCache × List (String × List PredictionResult)) :=
  if time_steps ≤ 0 then .error .nonPositiveTimeSteps
  else EmulatorRunner.runPreds store predict batch mt time_steps.toNat predictors c

/-- Modelled from the spec: one row of a predictor's combined output table
(§4.5, §6), absent from the provided sources: scenario tag, time index,
predicted value, plus the echoed originating scenario record. -/
structure ResultRow where
  scenario_tag : String
  timestep : Nat
  value : ℚ
  scenario : Option ScenarioRecord
deriving DecidableEq, Repr

/-- Modelled from the spec: the per-row join of a prediction with its
originating scenario record by scenario tag (§4.5). -/
def joinRow (batch : List ScenarioRecord) (pr : PredictionResult) : ResultRow :=
  ⟨pr.scenario_tag, pr.timestep, pr.value,
   batch.find? (fun s => s.scenario_tag == pr.scenario_tag)⟩

/-- Modelled from the spec: `ResultAggregator.aggregate` (§4.5), absent from the
provided sources: one combined table per predictor, each prediction row joined
with its originating scenario record. -/
def ResultAggregator.aggregate
    (per : List (String × List PredictionResult))
    (batch : List ScenarioRecord) : List (String × List ResultRow) :=
  per.map (fun x => (x.1, x.2.map (joinRow batch)))

/-- The table a result object exposes for predictor `p` (empty when absent). -/
def tableFor (agg : List (String × List ResultRow)) (p : String) :
    List ResultRow :=
  (agg.lookup p).getD []

/-- Modelled from the spec: the benchmark mapping (§3, §4.5): per-stage elapsed
seconds plus a `total` entry. -/
structure BenchmarkRecord where
  stages : List (String × ℚ)
  total : ℚ
deriving DecidableEq, Repr

/-- Modelled from the spec: the final result object (§4.5, §6): per-predictor
tables plus the optional benchmark mapping. -/
structure ResultObject where
  tables : List (String × List ResultRow)
  benchmarks : Option BenchmarkRecord
deriving DecidableEq, Repr

/-- Zero-padded automatic scenario tag (§4.2). -/
def autoTag (i : Nat) : String :=
  let s := toString i
  (List.replicate (3 - s.length) '0').asString ++ s

/-- Modelled from the spec: resolution of one positional broadcast row into a
canonical ScenarioRecord (§3, per the design note on the tagged-variant
resolution), absent from the provided sources. -/
def rowToRecord (row : List ℚ) (tag : String) : ScenarioRecord :=
  { eir := row.getD 0 0, dn0_use := row.getD 1 0, dn0_future := row.getD 2 0,
    Q0 := row.getD 3 0, phi_bednets := row.getD 4 0, seasonal := row.getD 5 0,
    routine := row.getD 6 0, itn_use := row.getD 7 0, irs_use := row.getD 8 0,
    itn_future := row.getD 9 0, irs_future := row.getD 10 0,
    lsm := row.getD 11 0, scenario_tag := tag }

/-- Batch of scenario records from broadcast rows and (possibly partial) tags;
missing tags are auto-generated (§4.2). -/
def rowsToBatch (rows : List (List ℚ)) (tags : List String) :
    List ScenarioRecord :=
  (List.range rows.length).map
    (fun i => rowToRecord (rows.getD i []) (tags.getD i (autoTag i)))

/-- Modelled from the spec: the top-level pipeline `run_minter_scenarios`
(§2, §4.5), absent from the provided sources.  `clock` is the wall clock read
at stage boundaries; when `benchmark` is set the result carries per-stage
elapsed times and a `total`, and otherwise no benchmark mapping.  Duplicate
scenario tags are a hard input error (§4.2). -/
def run_minter_scenarios (clock : Nat → ℚ) (store : String × String → Bool)
    (predict : Nat → ScenarioRecord → Nat → List ℚ) (c : ModelCache)
    (fields : List (ParamField ℚ)) (tags : List String)
    (predictors : List String) (mt : String) (time_steps : Int)
    (benchmark : Bool) : Except MintError ResultObject :=
  let t0 := clock 0
  match ScenarioBuilder.build fields with
  | .error e => .error e
  | .ok rows =>
    let batch := rowsToBatch rows tags
    if (batch.map (fun s => s.scenario_tag)).Nodup then
      let t1 := clock 1
      match EmulatorRunner.run store predict c batch predictors mt time_steps with
      | .error e => .error e
      | .ok (_, per) =>
        let t2 := clock 2
        let tables := ResultAggregator.aggregate per batch
        let t3 := clock 3
        .ok { tables := tables,
              benchmarks :=
                if benchmark then
                  some ⟨[("build", t1 - t0), ("predict", t2 - t1),
                         ("aggregate", t3 - t2)], t3 - t0⟩
                else none }
    else .error .duplicateTags

/-- A concrete scenario record used to instantiate proved properties. -/
def sampleRecord : ScenarioRecord :=
  { eir := 50, dn0_use := 1, dn0_future := 1, Q0 := 1,
    phi_bednets := 1, seasonal := 1, routine := 0, itn_use := 1,
    irs_use := 0, itn_future := 1, irs_future := 0, lsm := 0,
    scenario_tag := "s0" }

/-! ## Helper lemmas -/

lemma sum_weighted_bounds (g : String → ℚ) (hg : ∀ s, 0 ≤ g s ∧ g s ≤ 1) :
    ∀ l : List (String × ℚ), (∀ kv ∈ l, 0 ≤ kv.2) →
      0 ≤ (l.map (fun kv => kv.2 * g kv.1)).sum ∧
      (l.map (fun kv => kv.2 * g kv.1)).sum ≤ (l.map (fun kv => kv.2)).sum
  | [], _ => by simp
  | kv :: l, hv => by
    have ih := sum_weighted_bounds g hg l (fun x hx => hv x (List.mem_cons_of_mem _ hx))
    have h0 : 0 ≤ kv.2 := hv kv (List.mem_cons_self _ _)
    have hga := hg kv.1
    have hm0 : 0 ≤ kv.2 * g kv.1 := mul_nonneg h0 hga.1
    have hm1 : kv.2 * g kv.1 ≤ kv.2 := mul_le_of_le_one_right h0 hga.2
    simp only [List.map_cons, List.sum_cons]
    constructor
    · linarith [ih.1]
    · linarith [ih.2]

lemma find?_unknown_none (usage : List (String × ℚ))
    (hkeys : ∀ kv ∈ usage, (CANONICAL_NET_TYPES.lookup kv.1).isSome = true) :
    usage.find? (fun kv => (CANONICAL_NET_TYPES.lookup kv.1).isNone) = none := by
  rw [List.find?_eq_none]
  intro x hx
  have := hkeys x hx
  cases h : CANONICAL_NET_TYPES.lookup x.1 <;> simp_all

lemma find?_range_none (usage : List (String × ℚ))
    (hvals : ∀ kv ∈ usage, 0 ≤ kv.2 ∧ kv.2 ≤ 1) :
    usage.find? (fun kv => decide (kv.2 < 0) || decide (1 < kv.2)) = none := by
  rw [List.find?_eq_none]
  intro x hx
  have := hvals x hx
  simp only [Bool.or_eq_true, decide_eq_true_eq, not_or]
  exact ⟨not_lt.mpr this.1, not_lt.mpr this.2⟩

lemma batchLen_cons_scalar (a : ℚ) (fs : List (ParamField ℚ)) :
    batchLen (ParamField.scalar a :: fs) = batchLen fs := rfl

lemma batchLen_cons_seq (xs : List ℚ) (fs : List (ParamField ℚ)) :
    batchLen (ParamField.seq xs :: fs) = max xs.length (batchLen fs) := rfl

lemma batchLen_all_scalar : ∀ fs : List (ParamField ℚ),
    (∀ f ∈ fs, f.isScalar = true) → batchLen fs = 1
  | [], _ => rfl
  | f :: fs, h => by
    cases f with
    | scalar a =>
      rw [batchLen_cons_scalar]
      exact batchLen_all_scalar fs (fun g hg => h g (List.mem_cons_of_mem _ hg))
    | seq xs => simpa [ParamField.isScalar] using h _ (List.mem_cons_self _ _)

lemma batchLen_append_scalars : ∀ (pre rest : List (ParamField ℚ)),
    (∀ f ∈ pre, f.isScalar = true) → batchLen (pre ++ rest) = batchLen rest
  | [], rest, _ => rfl
  | f :: pre, rest, h => by
    cases f with
    | scalar a =>
      rw [List.cons_append, batchLen_cons_scalar]
      exact batchLen_append_scalars pre rest
        (fun g hg => h g (List.mem_cons_of_mem _ hg))
    | seq xs => simpa [ParamField.isScalar] using h _ (List.mem_cons_self _ _)

lemma checkShapes_all_ok (n : Nat) : ∀ (fs : List (ParamField ℚ)) (idx : Nat),
    (∀ f ∈ fs, ∀ m, f.lenOpt = some m → m = 1 ∨ m = n) →
    checkShapes n fs idx = .ok ()
  | [], _, _ => rfl
  | f :: fs, idx, h => by
    cases hf : f.lenOpt with
    | none =>
      simp only [checkShapes, hf]
      exact checkShapes_all_ok n fs (idx + 1)
        (fun g hg => h g (List.mem_cons_of_mem _ hg))
    | some m =>
      have hc := h f (List.mem_cons_self _ _) m hf
      simp only [checkShapes, hf, if_pos hc]
      exact checkShapes_all_ok n fs (idx + 1)
        (fun g hg => h g (List.mem_cons_of_mem _ hg))

lemma checkShapes_mismatch (n : Nat) (xs : List ℚ) (hx1 : xs.length ≠ 1)
    (hxn : xs.length ≠ n) : ∀ (fs : List (ParamField ℚ)) (idx : Nat),
    ParamField.seq xs ∈ fs →
    ∃ k, checkShapes n fs idx = .error (.shapeMismatch k)
  | [], _, h => absurd h (List.not_mem_nil _)
  | f :: fs, idx, h => by
    cases hf : f.lenOpt with
    | none =>
      have hmem : ParamField.seq xs ∈ fs := by
        rcases List.mem_cons.mp h with he | hm
        · rw [← he] at hf; cases hf
        · exact hm
      obtain ⟨k, hk⟩ := checkShapes_mismatch n xs hx1 hxn fs (idx + 1) hmem
      exact ⟨k, by simp only [checkShapes, hf]; exact hk⟩
    | some m =>
      by_cases hc : m = 1 ∨ m = n
      · have hmem : ParamField.seq xs ∈ fs := by
          rcases List.mem_cons.mp h with he | hm
          · exfalso
            rw [← he] at hf
            simp only [ParamField.lenOpt, Option.some.injEq] at hf
            rcases hc with h1 | h2
            · exact hx1 (hf ▸ h1)
            · exact hxn (hf ▸ h2)
          · exact hm
        obtain ⟨k, hk⟩ := checkShapes_mismatch n xs hx1 hxn fs (idx + 1) hmem
        exact ⟨k, by simp only [checkShapes, hf, if_pos hc]; exact hk⟩
      · exact ⟨idx, by simp only [checkShapes, hf, if_neg hc]⟩

lemma length_le_batchLen (xs : List ℚ) : ∀ fs : List (ParamField ℚ),
    ParamField.seq xs ∈ fs → xs.length ≤ batchLen fs
  | [], h => absurd h (List.not_mem_nil _)
  | f :: fs, h => by
    rcases List.mem_cons.mp h with he | hm
    · rw [← he, batchLen_cons_seq]; exact Nat.le_max_left _ _
    · cases f with
      | scalar a =>
        rw [batchLen_cons_scalar]; exact length_le_batchLen xs fs hm
      | seq ys =>
        rw [batchLen_cons_seq]
        exact le_trans (length_le_batchLen xs fs hm) (Nat.le_max_right _ _)

lemma row_getD_scalar (fields : List (ParamField ℚ)) (i j : Nat) (a : ℚ)
    (hj : fields.getD j (ParamField.scalar 0) = ParamField.scalar a) :
    (fields.map (fun f => f.valueAt i)).getD j 0 = a := by
  rcases Nat.lt_or_ge j fields.length with h | h
  · have hfj : fields[j]? = some (ParamField.scalar a) := by
      rw [List.getElem?_eq_getElem h]
      rw [List.getD_eq_getElem?_getD, List.getElem?_eq_getElem h] at hj
      simpa using hj
    rw [List.getD_eq_getElem?_getD, List.getElem?_map, hfj]
    rfl
  · have hfj : fields[j]? = none := List.getElem?_eq_none h
    rw [List.getD_eq_getElem?_getD, hfj] at hj
    have ha : a = 0 := by
      simpa [Option.getD] using (ParamField.scalar.injEq _ _).mp hj.symm
    have hmj : (fields.map (fun f => f.valueAt i))[j]? = none :=
      List.getElem?_eq_none (by simpa using h)
    rw [List.getD_eq_getElem?_getD, hmj, ha]
    rfl

lemma fieldValid_of_unit (j : Nat) (v : ℚ) (h0 : 0 ≤ v) (h1 : v ≤ 1) :
    fieldValid j v = true := by
  unfold fieldValid
  split
  · simp [h0]
  · simp [h0, h1]

lemma checkRowValues_ok : ∀ (row : List ℚ) (i j : Nat),
    (∀ v ∈ row, 0 ≤ v ∧ v ≤ 1) → checkRowValues row i j = .ok ()
  | [], _, _, _ => rfl
  | v :: vs, i, j, h => by
    have hv := h v (List.mem_cons_self _ _)
    simp only [checkRowValues, fieldValid_of_unit j v hv.1 hv.2, if_true]
    exact checkRowValues_ok vs i (j + 1)
      (fun x hx => h x (List.mem_cons_of_mem _ hx))

lemma checkRows_all_ok : ∀ (rows : List (List ℚ)) (i : Nat),
    (∀ row ∈ rows, ∀ v ∈ row, 0 ≤ v ∧ v ≤ 1) → checkRows rows i = .ok ()
  | [], _, _ => rfl
  | row :: rows, i, h => by
    simp only [checkRows,
      checkRowValues_ok row i 0 (h row (List.mem_cons_self _ _))]
    exact checkRows_all_ok rows (i + 1)
      (fun r hr => h r (List.mem_cons_of_mem _ hr))

lemma valueAt_unit (f : ParamField ℚ)
    (hf : ∀ v ∈ f.values, 0 ≤ v ∧ v ≤ 1) (i : Nat) :
    0 ≤ f.valueAt i ∧ f.valueAt i ≤ 1 := by
  cases f with
  | scalar a => exact hf a (by simp [ParamField.values])
  | seq xs =>
    match xs with
    | [] =>
      rw [show (ParamField.seq ([] : List ℚ)).valueAt i = 0 from rfl]
      norm_num
    | [a] => exact hf a (by simp [ParamField.values])
    | a :: b :: bs =>
      rcases Nat.lt_or_ge i (a :: b :: bs).length with hi | hi
      · have hmem : (a :: b :: bs).getD i 0 ∈ (a :: b :: bs) := by
          rw [List.getD_eq_getElem?_getD, List.getElem?_eq_getElem hi]
          exact List.getElem_mem hi
        exact hf _ hmem
      · have hz : (a :: b :: bs).getD i 0 = 0 := by
          rw [List.getD_eq_getElem?_getD, List.getElem?_eq_none hi]
          rfl
        rw [show (ParamField.seq (a :: b :: bs)).valueAt i =
          (a :: b :: bs).getD i 0 from rfl, hz]
        norm_num

/-! ## Claim theorems -/

/-- C1: for every resistance level in [0,1] and every non-empty mapping of
valid net-type usage fractions whose values sum to at most 1,
`calculate_overall_dn0` returns a `DN0Result` whose `dn0` lies in [0,1] and
whose `itn_use` equals the exact un-weighted sum of the supplied usage
fractions. -/
theorem aggregate_valid_inputs_ok (eff : String → ℚ → ℚ) (resistance_level : ℚ)
    (usage : List (String × ℚ))
    (hres : 0 ≤ resistance_level ∧ resistance_level ≤ 1)
    (hne : usage ≠ [])
    (hkeys : ∀ kv ∈ usage, (CANONICAL_NET_TYPES.lookup kv.1).isSome = true)
    (hvals : ∀ kv ∈ usage, 0 ≤ kv.2 ∧ kv.2 ≤ 1)
    (hsum : (usage.map (fun kv => kv.2)).sum ≤ 1)
    (heff : ∀ t r, 0 ≤ eff t r ∧ eff t r ≤ 1) :
    ∃ res, calculate_overall_dn0 eff resistance_level usage = .ok res ∧
      0 ≤ res.dn0 ∧ res.dn0 ≤ 1 ∧
      res.itn_use = (usage.map (fun kv => kv.2)).sum := by
  cases usage with
  | nil => exact absurd rfl hne
  | cons a l =>
    have h1 := find?_unknown_none (a :: l) hkeys
    have h2 := find?_range_none (a :: l) hvals
    have hb := sum_weighted_bounds
      (fun s => eff ((CANONICAL_NET_TYPES.lookup s).getD "") resistance_level)
      (fun s => heff _ _) (a :: l) (fun kv hkv => (hvals kv hkv).1)
    refine ⟨⟨((a :: l).map (fun kv =>
        kv.2 * eff ((CANONICAL_NET_TYPES.lookup kv.1).getD "") resistance_level)).sum,
        ((a :: l).map (fun kv => kv.2)).sum⟩,
      ?_, hb.1, le_trans hb.2 hsum, rfl⟩
    simp only [calculate_overall_dn0, h1, h2, if_neg (not_lt.mpr hsum)]

/-- C2: `calculate_overall_dn0` with an empty usage mapping always fails with
the "must supply at least one net type" error; with any key outside the
canonical set it always fails with the "Unknown net type" error, regardless of
the other arguments, and no result is produced. -/
theorem aggregate_input_errors (eff : String → ℚ → ℚ) (resistance_level : ℚ) :
    calculate_overall_dn0 eff resistance_level [] = .error .emptyNetTypes ∧
    (∀ (usage : List (String × ℚ)) (k : String) (v : ℚ),
      (k, v) ∈ usage → CANONICAL_NET_TYPES.lookup k = none →
      ∃ u, calculate_overall_dn0 eff resistance_level usage =
             .error (.unknownNetType u) ∧
           CANONICAL_NET_TYPES.lookup u = none) := by
  refine ⟨rfl, ?_⟩
  intro usage k v hmem hk
  cases usage with
  | nil => cases hmem
  | cons a l =>
    have hsome :
        ((a :: l).find? (fun kv => (CANONICAL_NET_TYPES.lookup kv.1).isNone)).isSome := by
      rw [List.find?_isSome]
      exact ⟨(k, v), hmem, by simp [hk]⟩
    obtain ⟨kv0, hkv0⟩ := Option.isSome_iff_exists.mp hsome
    have hp := List.find?_some hkv0
    refine ⟨kv0.1, ?_, ?_⟩
    · simp only [calculate_overall_dn0, hkv0]
    · simpa using hp

/-- C6: when the supplied usage fractions (all canonical, all in range) sum to
strictly more than 1, `calculate_overall_dn0` rejects the call with the
sum-exceeds-one input error: no `DN0Result` is produced, so `itn_use` is never
a silently capped or normalized value. -/
theorem aggregate_rejects_sum_above_one (eff : String → ℚ → ℚ)
    (resistance_level : ℚ) (usage : List (String × ℚ))
    (hkeys : ∀ kv ∈ usage, (CANONICAL_NET_TYPES.lookup kv.1).isSome = true)
    (hvals : ∀ kv ∈ usage, 0 ≤ kv.2 ∧ kv.2 ≤ 1)
    (hsum : 1 < (usage.map (fun kv => kv.2)).sum) :
    calculate_overall_dn0 eff resistance_level usage =
      .error .usageSumExceedsOne := by
  cases usage with
  | nil => norm_num at hsum
  | cons a l =>
    have h1 := find?_unknown_none (a :: l) hkeys
    have h2 := find?_range_none (a :: l) hvals
    simp only [calculate_overall_dn0, h1, h2, if_pos hsum]

/-- Witness for C1 at a concrete valid input. -/
theorem aggregate_valid_inputs_ok_witness :
    ∃ res, calculate_overall_dn0 (fun _ _ => 1) 1 [("py_only", 1)] = .ok res ∧
      0 ≤ res.dn0 ∧ res.dn0 ≤ 1 ∧
      res.itn_use = ([("py_only", (1 : ℚ))].map (fun kv => kv.2)).sum :=
  aggregate_valid_inputs_ok (fun _ _ => 1) 1 [("py_only", 1)]
    (by norm_num) (by decide) (by decide) (by decide) (by simp)
    (fun t r => by norm_num)

/-- Witness for C2 at concrete inputs: the empty mapping and a mapping holding
the unknown key `unknown_net`. -/
theorem aggregate_input_errors_witness :
    calculate_overall_dn0 (fun _ _ => 1) 1 [] = .error .emptyNetTypes ∧
    ∃ u, calculate_overall_dn0 (fun _ _ => 1) 1 [("unknown_net", 1)] =
           .error (.unknownNetType u) ∧
         CANONICAL_NET_TYPES.lookup u = none :=
  ⟨(aggregate_input_errors (fun _ _ => 1) 1).1,
   (aggregate_input_errors (fun _ _ => 1) 1).2 [("unknown_net", 1)]
     "unknown_net" 1 (by decide) (by decide)⟩

/-- Witness for C6 at a concrete input whose usage fractions sum to 2. -/
theorem aggregate_rejects_sum_above_one_witness :
    calculate_overall_dn0 (fun _ _ => 1) 1
      [("py_only", 1), ("py_pbo", 1)] = .error .usageSumExceedsOne :=
  aggregate_rejects_sum_above_one (fun _ _ => 1) 1
    [("py_only", 1), ("py_pbo", 1)] (by decide) (by decide) (by norm_num)

/-- C10: the short-code lookup table `CANONICAL_NET_TYPES` maps `py_only`,
`py_pbo`, `py_pyrrole` and `py_ppf` to exactly the canonical names
`pyrethroid_only`, `pyrethroid_pbo`, `pyrethroid_pyrrole` and `pyrethroid_ppf`
respectively, and these four codes are the only accepted short codes. -/
theorem canonical_net_types_exact :
    CANONICAL_NET_TYPES.lookup "py_only" = some "pyrethroid_only" ∧
    CANONICAL_NET_TYPES.lookup "py_pbo" = some "pyrethroid_pbo" ∧
    CANONICAL_NET_TYPES.lookup "py_pyrrole" = some "pyrethroid_pyrrole" ∧
    CANONICAL_NET_TYPES.lookup "py_ppf" = some "pyrethroid_ppf" ∧
    ∀ k : String, (CANONICAL_NET_TYPES.lookup k).isSome = true ↔
      (k = "py_only" ∨ k = "py_pbo" ∨ k = "py_pyrrole" ∨ k = "py_ppf") := by
  refine ⟨by decide, by decide, by decide, by decide, fun k => ?_⟩
  by_cases h1 : k = "py_only"
  · subst h1; decide
  by_cases h2 : k = "py_pbo"
  · subst h2; decide
  by_cases h3 : k = "py_pyrrole"
  · subst h3; decide
  by_cases h4 : k = "py_ppf"
  · subst h4; decide
  have e1 : (k == "py_only") = false := beq_eq_false_iff_ne.mpr h1
  have e2 : (k == "py_pbo") = false := beq_eq_false_iff_ne.mpr h2
  have e3 : (k == "py_pyrrole") = false := beq_eq_false_iff_ne.mpr h3
  have e4 : (k == "py_ppf") = false := beq_eq_false_iff_ne.mpr h4
  simp [CANONICAL_NET_TYPES, List.lookup, e1, e2, e3, e4, h1, h2, h3, h4]

/-- C3: `ScenarioBuilder.build` with one sequence-valued field of length N > 1
and all other fields scalar, every supplied value satisfying the §3 record
invariant, produces a batch of exactly N rows in which every scalar field is
replicated identically across all rows; with two sequence-valued fields of
differing lengths, neither being 1 nor the common batch length, it fails with
a shape-mismatch input error and produces no batch. -/
theorem scenario_builder_broadcast :
    (∀ (pre post : List (ParamField ℚ)) (xs : List ℚ),
      1 < xs.length →
      (∀ f ∈ pre, f.isScalar = true) →
      (∀ f ∈ post, f.isScalar = true) →
      (∀ f ∈ pre ++ ParamField.seq xs :: post, ∀ v ∈ f.values,
        0 ≤ v ∧ v ≤ 1) →
      ∃ out,
        ScenarioBuilder.build (pre ++ ParamField.seq xs :: post) = .ok out ∧
        out.length = xs.length ∧
        ∀ row ∈ out, ∀ (j : Nat) (a : ℚ),
          (pre ++ ParamField.seq xs :: post).getD j (ParamField.scalar 0) =
            ParamField.scalar a →
          row.getD j 0 = a) ∧
    (∀ (fields : List (ParamField ℚ)) (xs ys : List ℚ),
      ParamField.seq xs ∈ fields → ParamField.seq ys ∈ fields →
      xs.length ≠ ys.length → xs.length ≠ 1 → ys.length ≠ 1 →
      ∃ k, ScenarioBuilder.build fields = .error (.shapeMismatch k)) := by
  constructor
  · intro pre post xs hN hpre hpost hunit
    have hbl : batchLen (pre ++ ParamField.seq xs :: post) = xs.length := by
      rw [batchLen_append_scalars pre _ hpre, batchLen_cons_seq,
          batchLen_all_scalar post hpost]
      omega
    have hcheck :
        checkShapes (batchLen (pre ++ ParamField.seq xs :: post))
          (pre ++ ParamField.seq xs :: post) 0 = .ok () := by
      apply checkShapes_all_ok
      intro f hf m hm
      rcases List.mem_append.mp hf with hl | hr
      · have := hpre f hl
        cases f with
        | scalar a => cases hm
        | seq ys => simp [ParamField.isScalar] at this
      · rcases List.mem_cons.mp hr with he | hh
        · right
          rw [he] at hm
          simp only [ParamField.lenOpt, Option.some.injEq] at hm
          omega
        · have := hpost f hh
          cases f with
          | scalar a => cases hm
          | seq ys => simp [ParamField.isScalar] at this
    have hrows :
        checkRows
          ((List.range (batchLen (pre ++ ParamField.seq xs :: post))).map
            (fun i => (pre ++ ParamField.seq xs :: post).map
              (fun f => f.valueAt i))) 0 = .ok () := by
      apply checkRows_all_ok
      intro row hrow v hv
      obtain ⟨i, _, hrw⟩ := List.mem_map.mp hrow
      rw [← hrw] at hv
      obtain ⟨f, hf, hfv⟩ := List.mem_map.mp hv
      rw [← hfv]
      exact valueAt_unit f (hunit f hf) i
    refine ⟨(List.range (batchLen (pre ++ ParamField.seq xs :: post))).map
      (fun i => (pre ++ ParamField.seq xs :: post).map (fun f => f.valueAt i)),
      ?_, ?_, ?_⟩
    · simp only [ScenarioBuilder.build, hcheck, hrows]
    · simp [hbl]
    · intro row hrow j a hj
      obtain ⟨i, _, hrw⟩ := List.mem_map.mp hrow
      rw [← hrw]
      exact row_getD_scalar _ i j a hj
  · intro fields xs ys hxs hys hne hx1 hy1
    rcases Nat.lt_or_gt_of_ne hne with hlt | hgt
    · have hyb := length_le_batchLen ys fields hys
      have hxb : xs.length ≠ batchLen fields := by omega
      obtain ⟨k, hk⟩ := checkShapes_mismatch (batchLen fields) xs hx1 hxb fields 0 hxs
      exact ⟨k, by simp only [ScenarioBuilder.build, hk]⟩
    · have hxb := length_le_batchLen xs fields hxs
      have hyb : ys.length ≠ batchLen fields := by omega
      obtain ⟨k, hk⟩ := checkShapes_mismatch (batchLen fields) ys hy1 hyb fields 0 hys
      exact ⟨k, by simp only [ScenarioBuilder.build, hk]⟩

/-- Witness for C3: a three-field build with one length-3 sequence of valid
fractions, and a build holding sequences of lengths 2 and 3. -/
theorem scenario_builder_broadcast_witness :
    (∃ out,
      ScenarioBuilder.build (([ParamField.scalar 0] ++
        ParamField.seq [1, 0, 1] :: [ParamField.scalar 1]) :
          List (ParamField ℚ)) = .ok out ∧
      out.length = ([1, 0, 1] : List ℚ).length ∧
      ∀ row ∈ out, ∀ (j : Nat) (a : ℚ),
        (([ParamField.scalar 0] ++
          ParamField.seq [1, 0, 1] :: [ParamField.scalar 1]) :
            List (ParamField ℚ)).getD j
            (ParamField.scalar 0) = ParamField.scalar a →
        row.getD j 0 = a) ∧
    (∃ k, ScenarioBuilder.build
        [ParamField.seq [1, 2], ParamField.seq [1, 2, 3]] =
      .error (.shapeMismatch k)) :=
  ⟨scenario_builder_broadcast.1 [ParamField.scalar 0] [ParamField.scalar 1]
      [1, 0, 1] (by norm_num) (by decide) (by decide) (by decide),
   scenario_builder_broadcast.2
      [ParamField.seq [1, 2], ParamField.seq [1, 2, 3]] [1, 2] [1, 2, 3]
      (by decide) (by decide) (by decide) (by decide) (by decide)⟩

/-- C4: `ModelCache.get` called twice with the same key returns the identical
cached handle and unchanged cache, and the underlying artifact load happens
exactly once: a first call on an uncached key increments the load count by one,
and a call on a cached key returns the stored handle with the cache — and hence
the load count — untouched. -/
theorem model_cache_get_load_once (store : String × String → Bool)
    (c : ModelCache) (k : String × String) (h : Nat) (c1 : ModelCache)
    (hget : ModelCache.get store c k = .ok (h, c1)) :
    ModelCache.get store c1 k = .ok (h, c1) ∧
    (c.entries.lookup k = none → c1.loadCount = c.loadCount + 1) ∧
    (∀ h0, c.entries.lookup k = some h0 → h = h0 ∧ c1 = c) := by
  cases hl : c.entries.lookup k with
  | some h0 =>
    simp only [ModelCache.get, hl, Except.ok.injEq, Prod.mk.injEq] at hget
    obtain ⟨hh, hc⟩ := hget
    refine ⟨?_, ?_, ?_⟩
    · rw [← hc]
      simp [ModelCache.get, hl, hh]
    · intro hn; cases hn
    · intro h0' hs0
      rw [Option.some.injEq] at hs0
      exact ⟨hs0 ▸ hh.symm, hc.symm⟩
  | none =>
    simp only [ModelCache.get, hl] at hget
    cases hstore : store k with
    | false => rw [hstore] at hget; simp at hget
    | true =>
      rw [hstore] at hget
      simp only [if_true, Except.ok.injEq, Prod.mk.injEq] at hget
      obtain ⟨hh, hc⟩ := hget
      refine ⟨?_, ?_, ?_⟩
      · rw [← hc, ← hh]
        simp [ModelCache.get, List.lookup]
      · intro _
        rw [← hc]
      · intro h0 hs0; cases hs0

/-- Witness for C4: a fresh cache, an all-present store, and one key. -/
theorem model_cache_get_load_once_witness :
    ModelCache.get (fun _ => true)
        ⟨[(("prevalence", "LSTM"), 0)], 1, 1⟩ ("prevalence", "LSTM") =
      .ok (0, ⟨[(("prevalence", "LSTM"), 0)], 1, 1⟩) ∧
    ((⟨[], 0, 0⟩ : ModelCache).entries.lookup ("prevalence", "LSTM") = none →
      (⟨[(("prevalence", "LSTM"), 0)], 1, 1⟩ : ModelCache).loadCount =
        (⟨[], 0, 0⟩ : ModelCache).loadCount + 1) ∧
    (∀ h0, (⟨[], 0, 0⟩ : ModelCache).entries.lookup ("prevalence", "LSTM") =
        some h0 →
      0 = h0 ∧ (⟨[(("prevalence", "LSTM"), 0)], 1, 1⟩ : ModelCache) =
        ⟨[], 0, 0⟩) :=
  model_cache_get_load_once (fun _ => true) ⟨[], 0, 0⟩ ("prevalence", "LSTM")
    0 ⟨[(("prevalence", "LSTM"), 0)], 1, 1⟩ rfl

lemma get_ok_of_store (store : String × String → Bool) (c : ModelCache)
    (k : String × String) (hs : store k = true) :
    ∃ h c1, ModelCache.get store c k = .ok (h, c1) := by
  cases hl : c.entries.lookup k with
  | some h0 => exact ⟨h0, c, by simp [ModelCache.get, hl]⟩
  | none =>
    exact ⟨c.nextId, ⟨(k, c.nextId) :: c.entries, c.loadCount + 1, c.nextId + 1⟩,
      by simp [ModelCache.get, hl, hs]⟩

lemma warm_up_false_ok (store : String × String → Bool) :
    ∀ (keys : List (String × String)) (c : ModelCache),
    ∃ c1, ModelCache.warm_up store false c keys = .ok c1
  | [], c => ⟨c, rfl⟩
  | k :: ks, c => by
    cases hs : store k with
    | true =>
      obtain ⟨h, c1, hget⟩ := get_ok_of_store store c k hs
      obtain ⟨c2, hw⟩ := warm_up_false_ok store ks c1
      refine ⟨c2, ?_⟩
      simp only [ModelCache.warm_up, hs, if_true, hget]
      exact hw
    | false =>
      obtain ⟨c2, hw⟩ := warm_up_false_ok store ks c
      refine ⟨c2, ?_⟩
      simp only [ModelCache.warm_up, hs, Bool.false_eq_true, if_false]
      exact hw

/-- C7: `warm_up` invoked not in strict mode when some but not all model
artifacts are present at the configured location completes without an error: a
missing artifact does not fail the whole warm-up. -/
theorem warm_up_partial_availability (store : String × String → Bool)
    (c : ModelCache) (keys : List (String × String))
    (hsome : ∃ k ∈ keys, store k = true)
    (hmiss : ∃ k ∈ keys, store k = false) :
    ∃ c1, ModelCache.warm_up store false c keys = .ok c1 :=
  warm_up_false_ok store keys c

/-- Witness for C7: two known keys of which exactly one artifact is present. -/
theorem warm_up_partial_availability_witness :
    ∃ c1, ModelCache.warm_up (fun p => p.1 == "prevalence") false ⟨[], 0, 0⟩
        [("prevalence", "LSTM"), ("cases", "LSTM")] = .ok c1 :=
  warm_up_partial_availability (fun p => p.1 == "prevalence") ⟨[], 0, 0⟩
    [("prevalence", "LSTM"), ("cases", "LSTM")] (by decide) (by decide)

/-- C8: `EmulatorRunner.run` with a zero or negative `time_steps` fails with
the non-positive-time-horizon input error; the error is the same for every
store, cache, batch and predictor set, so it is raised before any model handle
is resolved or any model invoked, and no prediction results are produced. -/
theorem run_rejects_nonpositive_time_steps (store : String × String → Bool)
    (predict : Nat → ScenarioRecord → Nat → List ℚ) (c : ModelCache)
    (batch : List ScenarioRecord) (predictors : List String) (mt : String)
    (time_steps : Int) (hts : time_steps ≤ 0) :
    EmulatorRunner.run store predict c batch predictors mt time_steps =
      .error .nonPositiveTimeSteps := by
  simp only [EmulatorRunner.run, if_pos hts]

/-- Witness for C8 at `time_steps = 0`. -/
theorem run_rejects_nonpositive_time_steps_witness :
    EmulatorRunner.run (fun _ => false) (fun _ _ _ => []) ⟨[], 0, 0⟩
        [sampleRecord] ["prevalence"] "LSTM" 0 =
      .error .nonPositiveTimeSteps :=
  run_rejects_nonpositive_time_steps (fun _ => false) (fun _ _ _ => [])
    ⟨[], 0, 0⟩ [sampleRecord] ["prevalence"] "LSTM" 0 (by decide)

lemma concatMap_length_const (f : α → List β) (n : Nat)
    (hf : ∀ a, (f a).length = n) : ∀ l : List α,
    (concatMap f l).length = l.length * n
  | [] => by simp [concatMap]
  | a :: l => by
    simp only [concatMap, List.length_append, hf a, List.length_cons,
      concatMap_length_const f n hf l]
    ring

lemma map_concatMap (g : β → γ) (f : α → List β) : ∀ l : List α,
    (concatMap f l).map g = concatMap (fun a => (f a).map g) l
  | [] => rfl
  | a :: l => by simp [concatMap, List.map_append, map_concatMap g f l]

lemma concatMap_congr {f g : α → List β} : ∀ l : List α,
    (∀ a ∈ l, f a = g a) → concatMap f l = concatMap g l
  | [], _ => rfl
  | a :: l, h => by
    simp only [concatMap, h a (List.mem_cons_self _ _)]
    rw [concatMap_congr l (fun x hx => h x (List.mem_cons_of_mem _ hx))]

lemma toFinset_concatMap_replicate (ts : Nat) (hts : 0 < ts)
    (f : ScenarioRecord → String) : ∀ batch : List ScenarioRecord,
    (concatMap (fun s => List.replicate ts (f s)) batch).toFinset =
      (batch.map f).toFinset
  | [] => rfl
  | s :: batch => by
    simp only [concatMap, List.toFinset_append, List.map_cons,
      List.toFinset_cons,
      List.toFinset_replicate_of_ne_zero (Nat.pos_iff_ne_zero.mp hts),
      toFinset_concatMap_replicate ts hts f batch]
    rw [Finset.insert_eq]

lemma runPredictor_length (predict : Nat → ScenarioRecord → Nat → List ℚ)
    (h : Nat) (ts : Nat) (batch : List ScenarioRecord) :
    (runPredictor predict h batch ts).length = batch.length * ts := by
  rw [runPredictor]
  exact concatMap_length_const _ ts (fun s => by simp) batch

lemma runPredictor_map_timestep (predict : Nat → ScenarioRecord → Nat → List ℚ)
    (h : Nat) (ts : Nat) (batch : List ScenarioRecord) :
    (runPredictor predict h batch ts).map (fun r => r.timestep) =
      concatMap (fun _ => List.range ts) batch := by
  rw [runPredictor, map_concatMap]
  apply concatMap_congr
  intro s _
  simp only [List.map_map]
  rw [show ((fun r : PredictionResult => r.timestep) ∘ fun t =>
    (⟨s.scenario_tag, t, (predict h s ts).getD t 0⟩ : PredictionResult)) =
      fun t => t from rfl]
  simp

lemma runPredictor_map_tag (predict : Nat → ScenarioRecord → Nat → List ℚ)
    (h : Nat) (ts : Nat) (batch : List ScenarioRecord) :
    (runPredictor predict h batch ts).map (fun r => r.scenario_tag) =
      concatMap (fun s => List.replicate ts s.scenario_tag) batch := by
  rw [runPredictor, map_concatMap]
  apply concatMap_congr
  intro s _
  simp only [List.map_map]
  rw [show ((fun r : PredictionResult => r.scenario_tag) ∘ fun t =>
    (⟨s.scenario_tag, t, (predict h s ts).getD t 0⟩ : PredictionResult)) =
      fun _ => s.scenario_tag from rfl]
  rw [List.map_const', List.length_range]

lemma lookup_of_mem_fst {β : Type} : ∀ (l : List (String × β)) (p : String),
    p ∈ l.map Prod.fst → ∃ v, l.lookup p = some v ∧ (p, v) ∈ l
  | [], p, h => absurd h (List.not_mem_nil _)
  | (a, b) :: l, p, h => by
    by_cases he : p = a
    · subst he
      exact ⟨b, by simp [List.lookup], List.mem_cons_self _ _⟩
    · have hm : p ∈ l.map Prod.fst := by
        rcases List.mem_cons.mp h with h1 | h2
        · exact absurd h1 he
        · exact h2
      obtain ⟨v, hv, hmem⟩ := lookup_of_mem_fst l p hm
      have hb : (p == a) = false := beq_eq_false_iff_ne.mpr he
      refine ⟨v, ?_, List.mem_cons_of_mem _ hmem⟩
      simp only [List.lookup, hb]
      exact hv

lemma lookup_map_value (g : List PredictionResult → List ResultRow) :
    ∀ (l : List (String × List PredictionResult)) (p : String),
    (l.map (fun x => (x.1, g x.2))).lookup p = (l.lookup p).map g
  | [], _ => rfl
  | (a, b) :: l, p => by
    by_cases he : p = a
    · subst he; simp [List.lookup]
    · have hb : (p == a) = false := beq_eq_false_iff_ne.mpr he
      simp only [List.map_cons, List.lookup, hb]
      exact lookup_map_value g l p

lemma runPreds_ok_shape (store : String × String → Bool)
    (predict : Nat → ScenarioRecord → Nat → List ℚ)
    (batch : List ScenarioRecord) (mt : String) (ts : Nat) :
    ∀ (preds : List String) (c c2 : ModelCache)
      (per : List (String × List PredictionResult)),
    EmulatorRunner.runPreds store predict batch mt ts preds c = .ok (c2, per) →
    per.map Prod.fst = preds ∧
    ∀ x ∈ per, ∃ h, x.2 = runPredictor predict h batch ts
  | [], c, c2, per, hp => by
    simp only [EmulatorRunner.runPreds, Except.ok.injEq, Prod.mk.injEq] at hp
    rw [← hp.2]
    exact ⟨rfl, fun x hx => absurd hx (List.not_mem_nil _)⟩
  | p :: ps, c, c2, per, hp => by
    simp only [EmulatorRunner.runPreds] at hp
    cases hg : ModelCache.get store c (p, mt) with
    | error e => simp only [hg] at hp; cases hp
    | ok hc1 =>
      obtain ⟨h, c1⟩ := hc1
      simp only [hg] at hp
      cases hr : EmulatorRunner.runPreds store predict batch mt ts ps c1 with
      | error e => simp only [hr] at hp; cases hp
      | ok pr =>
        obtain ⟨c2', rest⟩ := pr
        simp only [hr, Except.ok.injEq, Prod.mk.injEq] at hp
        obtain ⟨ih1, ih2⟩ :=
          runPreds_ok_shape store predict batch mt ts ps c1 c2' rest hr
        rw [← hp.2]
        constructor
        · simp [ih1]
        · intro x hx
          rcases List.mem_cons.mp hx with h1 | h2
          · exact ⟨h, by rw [h1]⟩
          · exact ih2 x h2

/-- C5: for a batch of N scenarios with distinct tags run over a list of
predictors with a positive time horizon `ts`, the aggregated result contains,
for each requested predictor, a table of exactly N × ts rows whose rows
preserve batch row order with, inside each scenario, time ascending (the
timestep column is the concatenation of `0, …, ts-1` per scenario in batch
order, and the tag column the concatenation of `ts` copies of each scenario's
tag in batch order), and whose set of scenario tags equals the set of input
tags. -/
theorem runner_aggregated_shape (store : String × String → Bool)
    (predict : Nat → ScenarioRecord → Nat → List ℚ) (c : ModelCache)
    (batch : List ScenarioRecord) (preds : List String) (mt : String)
    (ts : Nat) (c1 : ModelCache) (per : List (String × List PredictionResult))
    (htags : (batch.map (fun s => s.scenario_tag)).Nodup)
    (hts : 0 < ts)
    (hrun : EmulatorRunner.run store predict c batch preds mt (ts : Int) =
      .ok (c1, per)) :
    ∀ p ∈ preds,
      ((ResultAggregator.aggregate per batch).lookup p).isSome = true ∧
      (tableFor (ResultAggregator.aggregate per batch) p).length =
        batch.length * ts ∧
      (tableFor (ResultAggregator.aggregate per batch) p).map
          (fun r => r.timestep) =
        concatMap (fun _ => List.range ts) batch ∧
      (tableFor (ResultAggregator.aggregate per batch) p).map
          (fun r => r.scenario_tag) =
        concatMap (fun s => List.replicate ts s.scenario_tag) batch ∧
      ((tableFor (ResultAggregator.aggregate per batch) p).map
          (fun r => r.scenario_tag)).toFinset =
        (batch.map (fun s => s.scenario_tag)).toFinset := by
  have hnneg : ¬ ((ts : Int) ≤ 0) := by
    rw [not_le]
    exact_mod_cast hts
  rw [EmulatorRunner.run, if_neg hnneg, Int.toNat_ofNat] at hrun
  obtain ⟨hfst, hmem⟩ :=
    runPreds_ok_shape store predict batch mt ts preds c c1 per hrun
  intro p hp
  have hpm : p ∈ per.map Prod.fst := by rw [hfst]; exact hp
  obtain ⟨tbl, hlk, hmem'⟩ := lookup_of_mem_fst per p hpm
  obtain ⟨h, htbl⟩ := hmem (p, tbl) hmem'
  have hagg : (ResultAggregator.aggregate per batch).lookup p =
      some (tbl.map (joinRow batch)) := by
    rw [ResultAggregator.aggregate, lookup_map_value, hlk]
    rfl
  have htf : tableFor (ResultAggregator.aggregate per batch) p =
      tbl.map (joinRow batch) := by
    rw [tableFor, hagg]
    rfl
  simp only at htbl
  refine ⟨by rw [hagg]; rfl, ?_, ?_, ?_, ?_⟩
  · rw [htf, List.length_map, htbl, runPredictor_length]
  · rw [htf, List.map_map, htbl]
    exact runPredictor_map_timestep predict h ts batch
  · rw [htf, List.map_map, htbl]
    exact runPredictor_map_tag predict h ts batch
  · rw [htf, List.map_map, htbl]
    rw [show ((fun r : ResultRow => r.scenario_tag) ∘ joinRow batch) =
      (fun r : PredictionResult => r.scenario_tag) from rfl]
    rw [runPredictor_map_tag predict h ts batch]
    exact toFinset_concatMap_replicate ts hts _ batch

/-- Witness for C5: one scenario, one predictor, horizon 1. -/
theorem runner_aggregated_shape_witness :
    ((ResultAggregator.aggregate
        [("prevalence", ([⟨"s0", 0, 0⟩] : List PredictionResult))]
        [sampleRecord]).lookup "prevalence").isSome = true ∧
    (tableFor (ResultAggregator.aggregate
        [("prevalence", ([⟨"s0", 0, 0⟩] : List PredictionResult))]
        [sampleRecord]) "prevalence").length = [sampleRecord].length * 1 ∧
    (tableFor (ResultAggregator.aggregate
        [("prevalence", ([⟨"s0", 0, 0⟩] : List PredictionResult))]
        [sampleRecord]) "prevalence").map (fun r => r.timestep) =
      concatMap (fun _ => List.range 1) [sampleRecord] ∧
    (tableFor (ResultAggregator.aggregate
        [("prevalence", ([⟨"s0", 0, 0⟩] : List PredictionResult))]
        [sampleRecord]) "prevalence").map (fun r => r.scenario_tag) =
      concatMap (fun s => List.replicate 1 s.scenario_tag) [sampleRecord] ∧
    ((tableFor (ResultAggregator.aggregate
        [("prevalence", ([⟨"s0", 0, 0⟩] : List PredictionResult))]
        [sampleRecord]) "prevalence").map (fun r => r.scenario_tag)).toFinset =
      ([sampleRecord].map (fun s => s.scenario_tag)).toFinset :=
  runner_aggregated_shape (fun _ => true) (fun _ _ _ => []) ⟨[], 0, 0⟩
    [sampleRecord] ["prevalence"] "LSTM" 1
    ⟨[(("prevalence", "LSTM"), 0)], 1, 1⟩
    [("prevalence", ([⟨"s0", 0, 0⟩] : List PredictionResult))]
    (by decide) (by decide) rfl "prevalence" (by decide)

/-- C9: with a fixed wall clock and fixed scenario inputs, running the
pipeline with `benchmark := true` and with `benchmark := false` produces
identical per-predictor result tables (and identical errors): timing capture
never changes any predicted value, row, or ordering of the output. -/
theorem benchmark_flag_preserves_tables (clock : Nat → ℚ)
    (store : String × String → Bool)
    (predict : Nat → ScenarioRecord → Nat → List ℚ) (c : ModelCache)
    (fields : List (ParamField ℚ)) (tags : List String)
    (predictors : List String) (mt : String) (time_steps : Int) :
    (run_minter_scenarios clock store predict c fields tags predictors mt
        time_steps true).map ResultObject.tables =
    (run_minter_scenarios clock store predict c fields tags predictors mt
        time_steps false).map ResultObject.tables := by
  simp only [run_minter_scenarios]
  split
  · rfl
  · split
    · split
      · rfl
      · rfl
    · rfl

end MINTe
